import Mathlib

/-!
Verification of the orchestration engine in `agents/manager.py`
(task decomposition with layered fallback parsing, round-robin
assignment, DB read helper, and final-report assembly).

The Python source is shallowly embedded: strings are `String`,
Python lists are `List`, `json.loads` is modelled by a recursive
descent JSON reader, the regular expressions used by the source
(`\s*(?:\d+\.|[-*])\s+(.*)` and `(?<=[.!?])\s+`) are modelled by
direct character scans, and fallible paths return `Option`.
-/

/-- Python `\s` for the ASCII range (space, tab, newline, carriage
return, vertical tab `\x0b`, form feed `\x0c`); also the character
class used by `str.strip()`. -/
def pyIsSpace (c : Char) : Bool :=
  c == ' ' || c == '\t' || c == '\n' || c == '\r' || c.toNat == 11 || c.toNat == 12

/-- Python `str.strip()` on raw character data. -/
def pyStripData (cs : List Char) : List Char :=
  ((cs.dropWhile pyIsSpace).reverse.dropWhile pyIsSpace).reverse

/-- Python `str.strip()`. -/
def pyStrip (s : String) : String := String.mk (pyStripData s.data)

/-- Python `str.strip(ch)` for a single-character strip set. -/
def stripChar (cs : List Char) (ch : Char) : List Char :=
  ((cs.dropWhile (fun c => c == ch)).reverse.dropWhile (fun c => c == ch)).reverse

/-- `pat` occurs as a contiguous sublist of the second argument
(Python's `in` operator on strings). -/
def listContains (pat : List Char) : List Char → Bool
  | [] => pat.isPrefixOf []
  | c :: t => pat.isPrefixOf (c :: t) || listContains pat t

/-- Python `pat in hay` for strings. -/
def strContains (hay pat : String) : Bool := listContains pat.data hay.data

/-! ## A model of Python `json.loads`

The source calls `json.loads(content)` (line 60) and then checks
`isinstance(agent_list, list) and all(isinstance(x, str) for x in agent_list)`
(line 61).  We model the parser closely enough to decide which strings
parse, and to what shape: JSON values are read by recursive descent,
with Python's `json` extensions (`NaN`, `Infinity`, `-Infinity`)
tried after the number grammar, as CPython's scanner does. -/

inductive Json where
  | null
  | bool (b : Bool)
  | num (lexeme : String)
  | str (s : String)
  | arr (elems : List Json)
  | obj (fields : List (String × Json))

/-- JSON insignificant whitespace (space, tab, newline, carriage return). -/
def jsonWsChar (c : Char) : Bool :=
  c == ' ' || c == '\t' || c == '\n' || c == '\r'

/-- Skip JSON whitespace. -/
def skipWs (cs : List Char) : List Char := cs.dropWhile jsonWsChar

/-- Hexadecimal digit value, for `\uXXXX` escapes. -/
def hexVal (c : Char) : Option Nat :=
  if c.isDigit then some (c.toNat - 48)
  else if 97 ≤ c.toNat ∧ c.toNat ≤ 102 then some (c.toNat - 87)
  else if 65 ≤ c.toNat ∧ c.toNat ≤ 70 then some (c.toNat - 55)
  else none

/-- Single-character JSON string escapes (`\"`, `\\`, `\/`, `\b`, `\f`,
`\n`, `\r`, `\t`).  Character codes 34 and 92 are the double quote and
the backslash. -/
def escapeChar (e : Char) : Option Char :=
  if e.toNat == 34 then some (Char.ofNat 34)
  else if e.toNat == 92 then some (Char.ofNat 92)
  else if e == '/' then some '/'
  else if e == 'b' then some (Char.ofNat 8)
  else if e == 'f' then some (Char.ofNat 12)
  else if e == 'n' then some '\n'
  else if e == 'r' then some '\r'
  else if e == 't' then some '\t'
  else none

/-- Parse the body of a JSON string after the opening quote; returns the
decoded characters and the remaining input after the closing quote.
Raw control characters are rejected, as in Python's strict mode. -/
def parseStringBody : List Char → Option (List Char × List Char)
  | [] => none
  | c :: rest =>
    if c.toNat == 34 then some ([], rest)
    else if c.toNat == 92 then
      match rest with
      | [] => none
      | e :: rest2 =>
        if e == 'u' then
          match rest2 with
          | a :: b :: c2 :: d :: rest3 =>
            match hexVal a, hexVal b, hexVal c2, hexVal d with
            | some ha, some hb, some hc, some hd =>
              (parseStringBody rest3).map
                (fun p => (Char.ofNat (((ha * 16 + hb) * 16 + hc) * 16 + hd) :: p.1, p.2))
            | _, _, _, _ => none
          | _ => none
        else
          match escapeChar e with
          | some ch => (parseStringBody rest2).map (fun p => (ch :: p.1, p.2))
          | none => none
    else if c.toNat < 32 then none
    else (parseStringBody rest).map (fun p => (c :: p.1, p.2))

/-- Optional fraction part `(\.\d+)?` of the JSON number grammar. -/
def fracPart (cs : List Char) : List Char × List Char :=
  match cs with
  | c :: r =>
    if c == '.' then
      let ds := r.takeWhile Char.isDigit
      if ds.isEmpty then ([], cs) else (c :: ds, r.dropWhile Char.isDigit)
    else ([], cs)
  | [] => ([], cs)

/-- Optional exponent part `([eE][-+]?\d+)?` of the JSON number grammar. -/
def expPart (cs : List Char) : List Char × List Char :=
  match cs with
  | c :: r =>
    if c == 'e' || c == 'E' then
      let (sgn, r2) :=
        match r with
        | s :: r3 => if s == '+' || s == '-' then ([s], r3) else (([] : List Char), r)
        | [] => (([] : List Char), r)
      let ds := r2.takeWhile Char.isDigit
      if ds.isEmpty then ([], cs) else (c :: (sgn ++ ds), r2.dropWhile Char.isDigit)
    else ([], cs)
  | [] => ([], cs)

/-- Fraction and exponent tail of a JSON number. -/
def numTail (cs : List Char) : List Char × List Char :=
  let (f, r1) := fracPart cs
  let (e, r2) := expPart r1
  (f ++ e, r2)

/-- The JSON number grammar `(-?(?:0|[1-9]\d*))(\.\d+)?([eE][-+]?\d+)?`
used by CPython's scanner; returns the lexeme and the remaining input. -/
def parseNumber (cs : List Char) : Option (List Char × List Char) :=
  let (sign, cs1) :=
    match cs with
    | c :: r => if c == '-' then ([c], r) else (([] : List Char), cs)
    | [] => (([] : List Char), cs)
  match cs1 with
  | [] => none
  | c :: r =>
    if c == '0' then
      let (t, rest1) := numTail r
      some (sign ++ c :: t, rest1)
    else if c.isDigit then
      let ds := r.takeWhile Char.isDigit
      let r2 := r.dropWhile Char.isDigit
      let (t, rest1) := numTail r2
      some (sign ++ c :: (ds ++ t), rest1)
    else none

/-- Atoms at a value position: `null`, `true`, `false`, a number, then
Python's `NaN` / `Infinity` / `-Infinity` extensions, in CPython's
scanner order. -/
def parseAtom (cs : List Char) : Option (Json × List Char) :=
  if "null".data.isPrefixOf cs then some (Json.null, cs.drop 4)
  else if "true".data.isPrefixOf cs then some (Json.bool true, cs.drop 4)
  else if "false".data.isPrefixOf cs then some (Json.bool false, cs.drop 5)
  else
    match parseNumber cs with
    | some (lex, rest) => some (Json.num (String.mk lex), rest)
    | none =>
      if "NaN".data.isPrefixOf cs then some (Json.num "NaN", cs.drop 3)
      else if "Infinity".data.isPrefixOf cs then some (Json.num "Infinity", cs.drop 8)
      else if "-Infinity".data.isPrefixOf cs then some (Json.num "-Infinity", cs.drop 9)
      else none

mutual

/-- Parse one JSON value (fuelled recursive descent). -/
def parseVal (fuel : Nat) (cs : List Char) : Option (Json × List Char) :=
  match fuel with
  | 0 => none
  | fuel + 1 =>
    match skipWs cs with
    | [] => none
    | c :: rest =>
      if c.toNat == 34 then
        (parseStringBody rest).map (fun p => (Json.str (String.mk p.1), p.2))
      else if c == '{' then
        match skipWs rest with
        | d :: rest2 =>
          if d == '}' then some (Json.obj [], rest2)
          else (parseObjLoop fuel (skipWs rest)).map (fun p => (Json.obj p.1, p.2))
        | [] => none
      else if c == '[' then
        match skipWs rest with
        | d :: rest2 =>
          if d == ']' then some (Json.arr [], rest2)
          else (parseArrLoop fuel (skipWs rest)).map (fun p => (Json.arr p.1, p.2))
        | [] => none
      else parseAtom (c :: rest)

/-- Parse the elements of a non-empty JSON array, starting at a value
position; consumes the closing bracket. -/
def parseArrLoop (fuel : Nat) (cs : List Char) : Option (List Json × List Char) :=
  match fuel with
  | 0 => none
  | fuel + 1 =>
    match parseVal fuel cs with
    | none => none
    | some (v, rest) =>
      match skipWs rest with
      | c :: r2 =>
        if c == ']' then some ([v], r2)
        else if c == ',' then (parseArrLoop fuel r2).map (fun p => (v :: p.1, p.2))
        else none
      | [] => none

/-- Parse the members of a non-empty JSON object, starting at a key
position; consumes the closing brace. -/
def parseObjLoop (fuel : Nat) (cs : List Char) : Option (List (String × Json) × List Char) :=
  match fuel with
  | 0 => none
  | fuel + 1 =>
    match skipWs cs with
    | c :: rest =>
      if c.toNat == 34 then
        match parseStringBody rest with
        | none => none
        | some (key, r2) =>
          match skipWs r2 with
          | d :: r3 =>
            if d == ':' then
              match parseVal fuel r3 with
              | none => none
              | some (v, r4) =>
                match skipWs r4 with
                | f :: r5 =>
                  if f == '}' then some ([(String.mk key, v)], r5)
                  else if f == ',' then
                    (parseObjLoop fuel r5).map (fun p => ((String.mk key, v) :: p.1, p.2))
                  else none
                | [] => none
            else none
          | [] => none
      else none
    | [] => none

end

/-- Model of Python `json.loads`: parse one value and require only
whitespace to remain (otherwise CPython raises "Extra data").  The fuel
`2 * s.length + 2` dominates the recursion depth, which grows only when
input characters are consumed. -/
def jsonLoads (s : String) : Option Json :=
  match parseVal (2 * s.length + 2) s.data with
  | some (v, rest) => if skipWs rest = [] then some v else none
  | none => none

/-- `isinstance(x, str)` on a parsed JSON value. -/
def jsonStr? : Json → Option String
  | Json.str s => some s
  | _ => none

/-- Line 61 of the source: the parsed value must be a list in which
every element is a string. -/
def asStringList : Json → Option (List String)
  | Json.arr elems => elems.mapM jsonStr?
  | _ => none

/-- Lines 60-62: `json.loads` followed by the
`isinstance(agent_list, list) and all(isinstance(x, str) ...)` check;
`none` covers both a parse exception and a wrong-shaped value, which
the source treats identically (fall through to the fallbacks). -/
def jsonLoadsStringList (s : String) : Option (List String) :=
  match jsonLoads s with
  | some v => asStringList v
  | none => none

/-! ## The fallback extraction chain of `estimate_agents` (lines 65-79) -/

/-- Line-break characters recognized by Python `str.splitlines`
(`\n`, `\r`, `\v`, `\f`, `\x1c`-`\x1e`, `\x85`, ` `, ` `). -/
def isPyLineBreak (c : Char) : Bool :=
  c == '\n' || c == '\r' || c.toNat == 11 || c.toNat == 12 ||
  c.toNat == 28 || c.toNat == 29 || c.toNat == 30 ||
  c.toNat == 133 || c.toNat == 8232 || c.toNat == 8233

/-- Worker for `str.splitlines`: splits at every line break, also
producing a final empty segment when the input ends with a break
(`pySplitlines` drops that trailing empty segment, as Python does);
`cur` is the current line, reversed.  The fuel is structural so the
function reduces; `pySplitlines` supplies more fuel than characters,
and every step consumes a character, so fuel never runs out. -/
def splitlinesNaive (fuel : Nat) (cur : List Char) (cs : List Char) : List (List Char) :=
  match fuel with
  | 0 => [cur.reverse]
  | fuel + 1 =>
    match cs with
    | [] => [cur.reverse]
    | c :: rest =>
      if c == '\r' then
        match rest with
        | d :: rest2 =>
          if d == '\n' then cur.reverse :: splitlinesNaive fuel [] rest2
          else cur.reverse :: splitlinesNaive fuel [] rest
        | [] => cur.reverse :: [[]]
      else if isPyLineBreak c then cur.reverse :: splitlinesNaive fuel [] rest
      else splitlinesNaive fuel (c :: cur) rest

/-- Python `str.splitlines` (line 66 of the source): no trailing empty
line for a trailing line break, and `[]` on the empty string. -/
def pySplitlines (s : String) : List String :=
  let segs := splitlinesNaive (s.length + 1) [] s.data
  let segs := if segs.getLast? = some [] then segs.dropLast else segs
  segs.map String.mk

/-- The anchored regex `\s*(?:\d+\.|[-*])\s+(.*)` of line 69: optional
leading whitespace, an enumerator (digits followed by a period, or a
`-`/`*` bullet), at least one whitespace character, then the captured
remainder of the line. -/
def matchEnumLine (line : List Char) : Option (List Char) :=
  let afterWs := line.dropWhile pyIsSpace
  let body? : Option (List Char) :=
    let digits := afterWs.takeWhile Char.isDigit
    if digits.isEmpty then
      match afterWs with
      | c :: r => if c == '-' || c == '*' then some r else none
      | [] => none
    else
      match afterWs.drop digits.length with
      | c :: r => if c == '.' then some r else none
      | [] => none
  match body? with
  | some (c :: r) => if pyIsSpace c then some ((c :: r).dropWhile pyIsSpace) else none
  | _ => none

/-- Lines 66-73: scan the lines of the content for enumerated/bulleted
items, strip whitespace and surrounding quote characters (codes 34 and
39), and collect the non-empty results.  NOTE: the source computes this
list into the local variable `extracted` and then never reads it — the
value is discarded (dead code). -/
def lineExtract (content : String) : List String :=
  (pySplitlines content).filterMap (fun line =>
    match matchEnumLine line.data with
    | none => none
    | some body =>
      let item := stripChar (stripChar (pyStripData body) (Char.ofNat 34)) (Char.ofNat 39)
      if item.isEmpty then none else some (String.mk item))

/-- Sentence-ending punctuation of the lookbehind in
`(?<=[.!?])\s+` (line 75). -/
def sentencePunct (c : Char) : Bool := c == '.' || c == '!' || c == '?'

mutual

/-- Worker for `re.split(r'(?<=[.!?])\s+', ...)`: a delimiter is a
maximal whitespace run whose preceding character is `.`, `!` or `?`.
`prevPunct` records whether the previous character was such
punctuation; `cur` is the current fragment, reversed.  Fuel is
structural (for reduction) and every step consumes a character. -/
def splitSentGo (fuel : Nat) (prevPunct : Bool) (cur : List Char) (cs : List Char) :
    List (List Char) :=
  match fuel with
  | 0 => [cur.reverse]
  | fuel + 1 =>
    match cs with
    | [] => [cur.reverse]
    | c :: rest =>
      if prevPunct && pyIsSpace c then
        cur.reverse :: splitSentSkip fuel rest
      else
        splitSentGo fuel (sentencePunct c) (c :: cur) rest

/-- Consume the rest of a delimiter's whitespace run, then start the
next fragment (a delimiter at the end of input leaves a final empty
fragment, as `re.split` does). -/
def splitSentSkip (fuel : Nat) (cs : List Char) : List (List Char) :=
  match fuel with
  | 0 => [[]]
  | fuel + 1 =>
    match cs with
    | [] => [[]]
    | c :: rest =>
      if pyIsSpace c then splitSentSkip fuel rest
      else splitSentGo fuel (sentencePunct c) [c] rest

end

/-- `re.split(r'(?<=[.!?])\s+', s)` (line 75). -/
def reSplitSentences (s : String) : List String :=
  (splitSentGo (s.length + 1) false [] s.data).map String.mk

/-- Lines 75-76: split the stripped content into sentences, strip each
fragment, and keep the fragments whose length exceeds 10. -/
def sentenceFragments (content : String) : List String :=
  ((reSplitSentences (pyStrip content)).map pyStrip).filter
    (fun s => decide (10 < s.length))

/-! ## `Manager.estimate_agents` (lines 26-81) -/

/-- Outcome of one `ollama.chat` call as the source consumes it: either
an exception, or a response whose content has already been normalized
to a string by lines 49-58 (the `message` accessor probing and the
`str(...)` coercions).  The claims under verification all speak of the
normalized response text, so the normalizer's input shapes are not
modelled further. -/
inductive ChatResult where
  | err (e : String)
  | ok (content : String)
deriving DecidableEq

/-- Result of `estimate_agents` as seen by its caller: `fatalExit`
models `exit(1)` (line 46), `raised` models the re-`raise` (line 48),
`result` a normal return. -/
inductive EstOutcome where
  | fatalExit (code : Nat)
  | raised (e : String)
  | result (xs : List String)
deriving DecidableEq

/-- Line 44: `'hourly usage limit' in str(e) or 'status code: 402' in str(e)`. -/
def rateLimited (e : String) : Bool :=
  strContains e "hourly usage limit" || strContains e "status code: 402"

/-- One attempt's parsing chain on a normalized response (lines 59-79):
strict JSON list-of-strings first (returned on success); otherwise the
line-based extraction is computed into `extracted` — and discarded, as
in the source, which never reads that variable — and the
sentence-split fragments are returned when there are more than one;
`none` means the attempt failed and the loop continues. -/
def attemptOnce (content : String) : Option (List String) :=
  match jsonLoadsStringList content with
  | some xs => some xs
  | none =>
    let _extracted := lineExtract content
    let sentences := sentenceFragments content
    if sentences.length > 1 then some sentences else none

/-- The attempt loop of `estimate_agents` (lines 33-81): `k` is the
current attempt index, `remaining` the attempts left out of 3; when all
attempts are exhausted the identity fallback `[mainTask]` is returned
(line 81).  A chat exception is fatal when rate-limited (line 46) and
re-raised otherwise (line 48). -/
def estLoop (mainTask : String) (resp : Nat → ChatResult) : Nat → Nat → EstOutcome
  | _, 0 => EstOutcome.result [mainTask]
  | k, remaining + 1 =>
    match resp k with
    | ChatResult.err e =>
      if rateLimited e then EstOutcome.fatalExit 1 else EstOutcome.raised e
    | ChatResult.ok content =>
      match attemptOnce content with
      | some xs => EstOutcome.result xs
      | none => estLoop mainTask resp (k + 1) remaining

/-- `Manager.estimate_agents(main_task)`, with the model collaborator's
per-attempt normalized responses supplied as `resp`. -/
def estimate_agents (mainTask : String) (resp : Nat → ChatResult) : EstOutcome :=
  estLoop mainTask resp 0 3

/-! ## Round-robin assignment in `Manager.orchestrate`
(lines 136-143 and 174-181) -/

/-- The assignment loop `for idx, subtask in enumerate(agent_list):
agent_subtasks[idx % num_agents].append(subtask)` (lines 142-143 /
180-181), over the enumerated subtasks `ps`. -/
def rrLoop (n : Nat) : List (Nat × String) → List (List String) → List (List String)
  | [], acc => acc
  | p :: rest, acc =>
    rrLoop n rest (acc.set (p.1 % n) (acc.getD (p.1 % n) [] ++ [p.2]))

/-- The per-agent subtask lists built by `orchestrate`: the
`num_agents == 1` special case gives the whole list to the single
agent; otherwise the lists start empty and the enumerated subtasks are
appended round-robin. -/
def assignSubtasks (agentList : List String) (numAgents : Nat) : List (List String) :=
  if numAgents = 1 then [agentList]
  else rrLoop numAgents agentList.enum (List.replicate numAgents [])

/-- Lines 136-143: the first computation of `agent_names` and
`agent_subtasks` (before the iteration-count prompt). -/
def firstAssignment (agentList : List String) (numAgents : Nat) :
    List String × List (List String) :=
  if numAgents = 1 then (["agent_1"], [agentList])
  else ((List.range numAgents).map (fun i => "agent_" ++ toString (i + 1)),
        rrLoop numAgents agentList.enum (List.replicate numAgents []))

/-- Lines 174-181: the second computation of `agent_names` and
`agent_subtasks` (after the prompt, from `self.num_agents`, which line
170 sets to the same `num_agents` value). -/
def secondAssignment (agentList : List String) (numAgents : Nat) :
    List String × List (List String) :=
  if numAgents = 1 then (["agent_1"], [agentList])
  else ((List.range numAgents).map (fun i => "agent_" ++ toString (i + 1)),
        rrLoop numAgents agentList.enum (List.replicate numAgents []))

/-! ## The post-creation "Agent Assignments" display (lines 213-216) -/

/-- Modelled from the spec: `AgentService.create_agents`
(`agents/agent_service.py`) is not under `src/`.  Per the spec's data
model ("Agent: a named worker ... Created when subtasks are assigned",
with names unique within a run and one progress entry per agent) and
its storage interface (`create-agent(runId, name, assignedSubtasks)`),
one agent is created per assigned subtask list, in declaration order,
so the returned name list has exactly one name per entry of
`subtasksByAgent`. -/
def create_agents (subtasksByAgent : List (List String)) : List String :=
  (List.range subtasksByAgent.length).map (fun i => "agent_" ++ toString (i + 1))

/-- The loop body of lines 214-216 over the enumerated agent names:
each iteration reads `agent_list[idx]`; `none` models the `IndexError`
raised when `idx` is out of bounds (the emoji and log formatting are
presentation and omitted). -/
def showAssignLoop (agentList : List String) : List (Nat × String) → Option (List String)
  | [] => some []
  | (idx, name) :: rest =>
    match agentList[idx]? with
    | none => none
    | some sub =>
      match showAssignLoop agentList rest with
      | none => none
      | some ls => some ((name ++ ": " ++ sub) :: ls)

/-- Lines 213-216: the "Agent Assignments" display printed after agent
creation, indexing `agent_list` at each position of `self.agent_names`. -/
def showAssignments (agentNames agentList : List String) : Option (List String) :=
  showAssignLoop agentList agentNames.enum

/-! ## `Manager._get_agent_tasks` (lines 281-292) -/

/-- A row of the `agents` table as used by `_get_agent_tasks`. -/
structure AgentRow where
  id : Nat
  run_id : Nat
  agent_name : String
  assigned_subtask : String

/-- `SELECT assigned_subtask FROM agents WHERE agent_name=?
ORDER BY id DESC LIMIT 1`: among the rows for `name`, the one with the
largest `id`. -/
def latestRowFor (db : List AgentRow) (name : String) : Option AgentRow :=
  (db.filter (fun r => r.agent_name == name)).foldl
    (fun best r =>
      match best with
      | none => some r
      | some b => if b.id < r.id then some r else some b)
    none

/-- `Manager._get_agent_tasks(name)` over a database state `db`: the
latest row's `assigned_subtask` string, or the empty-list encoding
`"[]"` when no row matches (lines 286-292). -/
def _get_agent_tasks (db : List AgentRow) (name : String) : String :=
  match latestRowFor db name with
  | some r => r.assigned_subtask
  | none => "[]"

/-! ## Final report assembly (lines 258-274) -/

/-- The `report_lines` list built by `orchestrate` (lines 258-274):
header block, one final progress line per agent name (line 266, with
`progress` standing for the rendered `self.progress.get(name, '')`),
the collected agent file names, then for each entry of
`agent_task_summaries` a name header followed by its summary lines. -/
def buildReportLines (projectName mainTask timestamp : String)
    (agentNames : List String) (progress : String → String)
    (agentFiles : List String)
    (summaries : List (String × List String)) : List String :=
  (["Project: " ++ projectName,
    "Task: " ++ mainTask,
    "Completed at: " ++ timestamp,
    "",
    "Agent Summaries:"]
   ++ agentNames.map (fun name => "- " ++ name ++ ": " ++ progress name)
   ++ ["\nAgent Files:"]
   ++ agentFiles.map (fun f => "  " ++ f)
   ++ ["\nAgent Task Details:"]
   ++ summaries.flatMap (fun p => ("\n" ++ p.1 ++ ":") :: p.2.map (fun s => "  " ++ s)))

/-! ## Helper lemmas -/

theorem listGetD_set_eq {α : Type} (l : List α) (i : Nat) (v d : α)
    (h : i < l.length) : (l.set i v).getD i d = v := by
  induction l generalizing i with
  | nil => simp at h
  | cons a t ih =>
    cases i with
    | zero => simp [List.set]
    | succ n =>
      simp only [List.set, List.getD_cons_succ]
      exact ih n (by simpa using h)

theorem listGetD_set_ne {α : Type} (l : List α) (i j : Nat) (v d : α)
    (h : i ≠ j) : (l.set i v).getD j d = l.getD j d := by
  induction l generalizing i j with
  | nil => simp [List.set]
  | cons a t ih =>
    cases i with
    | zero =>
      cases j with
      | zero => exact absurd rfl h
      | succ m => simp [List.set]
    | succ n =>
      cases j with
      | zero => simp [List.set]
      | succ m =>
        simp only [List.set, List.getD_cons_succ]
        exact ih n m (fun hnm => h (by rw [hnm]))

theorem listGetD_replicate {α : Type} (n i : Nat) (x d : α)
    (h : i < n) : (List.replicate n x).getD i d = x := by
  induction n generalizing i with
  | zero => omega
  | succ m ih =>
    cases i with
    | zero => simp [List.replicate]
    | succ k =>
      simp only [List.replicate, List.getD_cons_succ]
      exact ih k (by omega)

theorem rrLoop_length (n : Nat) (ps : List (Nat × String)) :
    ∀ acc, (rrLoop n ps acc).length = acc.length := by
  induction ps with
  | nil => intro acc; simp [rrLoop]
  | cons p rest ih =>
    intro acc
    simp only [rrLoop]
    rw [ih, List.length_set]

theorem rrLoop_getD (n : Nat) (ps : List (Nat × String)) :
    ∀ (acc : List (List String)), acc.length = n → ∀ i, i < n →
      (rrLoop n ps acc).getD i [] =
        acc.getD i [] ++ (ps.filter (fun p => p.1 % n == i)).map Prod.snd := by
  induction ps with
  | nil => intro acc hacc i hi; simp [rrLoop]
  | cons p rest ih =>
    intro acc hacc i hi
    simp only [rrLoop]
    rw [ih (acc.set (p.1 % n) (acc.getD (p.1 % n) [] ++ [p.2]))
        (by rw [List.length_set]; exact hacc) i hi]
    by_cases hpi : p.1 % n = i
    · rw [hpi, listGetD_set_eq acc i _ [] (by omega)]
      simp only [List.filter_cons, hpi, beq_self_eq_true, if_pos, List.map_cons,
        List.append_assoc, List.singleton_append]
    · rw [listGetD_set_ne acc (p.1 % n) i _ [] hpi]
      simp only [List.filter_cons]
      rw [if_neg (by simpa using hpi)]

/-! ## Claim theorems -/

/-- C5: for every subtask list and every agent count N ≥ 1 (including
the special-cased N = 1), the assignment built in `orchestrate` has one
list per agent, and agent i's list consists precisely of the subtasks
whose original indices are congruent to i modulo N, in original order —
so every subtask occurrence lands in exactly one agent's list (its
index has exactly one residue). -/
theorem assignSubtasks_round_robin (xs : List String) (n : Nat) (h : 1 ≤ n) :
    (assignSubtasks xs n).length = n ∧
    ∀ i, i < n → (assignSubtasks xs n).getD i [] =
      (xs.enum.filter (fun p => p.1 % n == i)).map Prod.snd := by
  unfold assignSubtasks
  by_cases h1 : n = 1
  · subst h1
    rw [if_pos rfl]
    refine ⟨rfl, ?_⟩
    intro i hi
    have hi0 : i = 0 := by omega
    subst hi0
    have hf : ∀ p ∈ xs.enum, (p.1 % 1 == 0) = true := by
      intro p _
      simp [Nat.mod_one]
    rw [List.filter_eq_self.mpr hf, List.enum_map_snd]
    simp [List.getD_cons_zero]
  · rw [if_neg h1]
    constructor
    · rw [rrLoop_length, List.length_replicate]
    · intro i hi
      rw [rrLoop_getD n xs.enum (List.replicate n []) (List.length_replicate n []) i hi,
        listGetD_replicate n i [] [] hi, List.nil_append]

/-- C5 witness: three subtasks over two agents. -/
theorem assignSubtasks_round_robin_witness :
    (assignSubtasks ["a", "b", "c"] 2).length = 2 ∧
    ∀ i, i < 2 → (assignSubtasks ["a", "b", "c"] 2).getD i [] =
      ((["a", "b", "c"].enum.filter (fun p => p.1 % 2 == i)).map Prod.snd) :=
  assignSubtasks_round_robin ["a", "b", "c"] 2 (by omega)

/-- C10: the agent-name list and per-agent subtask assignment computed
before the iteration-count prompt (lines 136-143) and the ones
recomputed after it (lines 174-181) are equal for the same decomposed
subtask list and agent count: the second computation is a pure
re-derivation of the first. -/
theorem assignment_recomputation_pure (xs : List String) (n : Nat) :
    firstAssignment xs n = secondAssignment xs n := rfl

/-- C9: the post-creation "Agent Assignments" display indexes
`agent_list` (the decomposed subtasks) at each index of the
agent-name list, which has one name per agent.  With 2 agents and 1
decomposed subtask — a reachable configuration, since the agent count
is free user input — index 1 is out of bounds and the display raises
`IndexError`, refuting in-bounds-for-every-configuration. -/
theorem showAssignments_out_of_bounds :
    create_agents (assignSubtasks ["only subtask"] 2) = ["agent_1", "agent_2"] ∧
    showAssignments (create_agents (assignSubtasks ["only subtask"] 2))
      ["only subtask"] = none := by
  constructor
  · rfl
  · rfl

/-- C7: `_get_agent_tasks` always returns a string (its return type),
and when no stored record exists for the queried name it returns the
empty-list encoding `"[]"` rather than failing or returning a null
value. -/
theorem get_agent_tasks_default (db : List AgentRow) (name : String)
    (h : ∀ r ∈ db, r.agent_name ≠ name) :
    _get_agent_tasks db name = "[]" := by
  have hnil : db.filter (fun r => r.agent_name == name) = [] := by
    rw [List.filter_eq_nil_iff]
    intro r hr
    simpa using h r hr
  simp [_get_agent_tasks, latestRowFor, hnil]

/-- C7 witness: a database holding only a row for another agent. -/
theorem get_agent_tasks_default_witness :
    _get_agent_tasks [⟨1, 1, "agent_1", "[\"x\"]"⟩] "agent_2" = "[]" :=
  get_agent_tasks_default [⟨1, 1, "agent_1", "[\"x\"]"⟩] "agent_2" (by decide)

/-- C8: the final report content assembled by `orchestrate` includes
the task text, the completion timestamp, one final progress line for
every agent name, and every entry of every agent's summary log. -/
theorem report_contains_required_content (pn task ts : String)
    (agentNames : List String) (progress : String → String)
    (files : List String) (summaries : List (String × List String)) :
    ("Task: " ++ task) ∈ buildReportLines pn task ts agentNames progress files summaries ∧
    ("Completed at: " ++ ts) ∈ buildReportLines pn task ts agentNames progress files summaries ∧
    (∀ name ∈ agentNames, ("- " ++ name ++ ": " ++ progress name) ∈
      buildReportLines pn task ts agentNames progress files summaries) ∧
    (∀ p ∈ summaries, ∀ s ∈ p.2, ("  " ++ s) ∈
      buildReportLines pn task ts agentNames progress files summaries) := by
  refine ⟨?_, ?_, ?_, ?_⟩
  · simp [buildReportLines]
  · simp [buildReportLines]
  · intro name hname
    exact List.mem_append_left _ (List.mem_append_left _ (List.mem_append_left _
      (List.mem_append_left _ (List.mem_append_right _ (List.mem_map_of_mem _ hname)))))
  · intro p hp s hs
    exact List.mem_append_right _
      (List.mem_flatMap.mpr ⟨p, hp, List.mem_cons_of_mem _ (List.mem_map_of_mem _ hs)⟩)

/-- C8 witness: one agent with one summary entry. -/
theorem report_contains_required_content_witness :
    ("- agent_1: done" ∈ buildReportLines "p" "t" "ts" ["agent_1"]
      (fun _ => "done") [] [("agent_1", ["s1"])]) ∧
    ("  s1" ∈ buildReportLines "p" "t" "ts" ["agent_1"]
      (fun _ => "done") [] [("agent_1", ["s1"])]) := by
  have h := report_contains_required_content "p" "t" "ts" ["agent_1"]
    (fun _ => "done") [] [("agent_1", ["s1"])]
  exact ⟨h.2.2.1 "agent_1" (by simp),
    h.2.2.2 ("agent_1", ["s1"]) (by simp) "s1" (by simp)⟩

/-- An attempt whose normalized response neither JSON-parses to a list
of strings nor yields more than one long sentence fragment fails. -/
theorem attemptOnce_eq_none (c : String) (hj : jsonLoadsStringList c = none)
    (hs : (sentenceFragments c).length ≤ 1) : attemptOnce c = none := by
  simp only [attemptOnce, hj]
  rw [if_neg (by omega)]

/-- A failed/skipped attempt advances the loop to the next attempt. -/
theorem estLoop_skip (task : String) (resp : Nat → ChatResult) (k r : Nat)
    (c : String) (hk : resp k = ChatResult.ok c) (ha : attemptOnce c = none) :
    estLoop task resp k (r + 1) = estLoop task resp (k + 1) r := by
  simp [estLoop, hk, ha]

/-- An attempt that returns `some []` can only have come from the
strict-JSON branch, with the empty array as parse result. -/
theorem attemptOnce_some_nil (c : String) (h : attemptOnce c = some []) :
    jsonLoadsStringList c = some [] := by
  cases hj : jsonLoadsStringList c with
  | some xs =>
    simp only [attemptOnce, hj, Option.some.injEq] at h
    subst h
    rfl
  | none =>
    simp only [attemptOnce, hj] at h
    by_cases hl : (sentenceFragments c).length > 1
    · rw [if_pos hl] at h
      have := Option.some.inj h
      rw [this] at hl
      simp at hl
    · rw [if_neg hl] at h
      exact absurd h (by simp)

/-- C1: if on each of the 3 attempts the normalized response neither
parses as a JSON list in which every element is a string nor yields
more than one sentence-split fragment longer than 10 characters, then
`estimate_agents` returns exactly the single-element list containing
the original task text verbatim — never a raised parse error. -/
theorem estimate_agents_identity_fallback (task : String) (resp : Nat → ChatResult)
    (h : ∀ j, j < 3 → ∃ c, resp j = ChatResult.ok c ∧
      jsonLoadsStringList c = none ∧ (sentenceFragments c).length ≤ 1) :
    estimate_agents task resp = EstOutcome.result [task] := by
  obtain ⟨c0, hr0, hj0, hs0⟩ := h 0 (by omega)
  obtain ⟨c1, hr1, hj1, hs1⟩ := h 1 (by omega)
  obtain ⟨c2, hr2, hj2, hs2⟩ := h 2 (by omega)
  unfold estimate_agents
  rw [estLoop_skip task resp 0 2 c0 hr0 (attemptOnce_eq_none c0 hj0 hs0),
    estLoop_skip task resp 1 1 c1 hr1 (attemptOnce_eq_none c1 hj1 hs1),
    estLoop_skip task resp 2 0 c2 hr2 (attemptOnce_eq_none c2 hj2 hs2)]
  rfl

/-- C1 witness: a prose response with no JSON, no enumerated lines, and
a single sentence. -/
theorem estimate_agents_identity_fallback_witness :
    estimate_agents "build a house" (fun _ => ChatResult.ok "just do it yourself") =
      EstOutcome.result ["build a house"] :=
  estimate_agents_identity_fallback "build a house" (fun _ => ChatResult.ok "just do it yourself")
    (fun j _ => ⟨"just do it yourself", rfl, by decide, by decide⟩)

/-- C2 counterexample: when the model's response is the text of an
empty JSON array, `json.loads` yields `[]`, the
`isinstance(list)`/`all(str)` check passes vacuously (line 61), and
`estimate_agents` returns the empty list — not a list with at least one
element, contradicting the claimed non-emptiness. -/
theorem estimate_agents_returns_empty_list :
    estimate_agents "T" (fun _ => ChatResult.ok "[]") = EstOutcome.result [] := by decide

/-- C2 amended: `estimate_agents` returns an ordered sequence of
strings and never raises a parse error; the returned list can be empty
only when some attempt's normalized response strictly parses as the
empty JSON array — whenever no attempt parses that way, the result
(JSON list, sentence fragments, or the `[task]` fallback) is
non-empty. -/
theorem estimate_agents_empty_only_from_empty_array (task : String)
    (resp : Nat → ChatResult)
    (h : estimate_agents task resp = EstOutcome.result []) :
    ∃ j, j < 3 ∧ ∃ c, resp j = ChatResult.ok c ∧ jsonLoadsStringList c = some [] := by
  have main : ∀ r k, estLoop task resp k r = EstOutcome.result [] →
      ∃ j, k ≤ j ∧ j < k + r ∧ ∃ c, resp j = ChatResult.ok c ∧
        jsonLoadsStringList c = some [] := by
    intro r
    induction r with
    | zero =>
      intro k hk
      simp only [estLoop, EstOutcome.result.injEq] at hk
      exact absurd hk (List.cons_ne_nil task [])
    | succ r ih =>
      intro k hk
      cases hr : resp k with
      | err e =>
        simp only [estLoop, hr] at hk
        by_cases hl : rateLimited e
        · rw [if_pos hl] at hk
          exact absurd hk (by simp)
        · rw [if_neg hl] at hk
          exact absurd hk (by simp)
      | ok c =>
        cases ha : attemptOnce c with
        | some xs =>
          simp only [estLoop, hr, ha, EstOutcome.result.injEq] at hk
          subst hk
          exact ⟨k, le_refl k, by omega, c, hr, attemptOnce_some_nil c ha⟩
        | none =>
          rw [estLoop_skip task resp k r c hr ha] at hk
          obtain ⟨j, hj1, hj2, hcc⟩ := ih (k + 1) hk
          exact ⟨j, by omega, by omega, hcc⟩
  obtain ⟨j, _, hj2, hcc⟩ := main 3 0 h
  exact ⟨j, by omega, hcc⟩

/-- C2 amended witness: the empty-array run exhibits an attempt that
parsed as the empty JSON array. -/
theorem estimate_agents_empty_only_from_empty_array_witness :
    ∃ j, j < 3 ∧ ∃ c, (fun _ => ChatResult.ok "[]") j = ChatResult.ok c ∧
      jsonLoadsStringList c = some [] :=
  estimate_agents_empty_only_from_empty_array "T" (fun _ => ChatResult.ok "[]") (by decide)

/-- C3: the line-based extraction is computed (lines 66-73) but never
surfaced — the local `extracted` is dead.  On a normalized response
whose lines carry two bullet items but which has no sentence-ending
punctuation, the extraction finds both items on every attempt, yet
`estimate_agents` falls through to the identity fallback `["T"]`
instead of surfacing them before the sentence-split fallback: the code
contradicts its own "Fallback: try to extract from numbered/bulleted
list" comment (line 65). -/
theorem lineExtract_computed_but_discarded :
    lineExtract "- Alpha subtask\n- Beta subtask" = ["Alpha subtask", "Beta subtask"] ∧
    jsonLoadsStringList "- Alpha subtask\n- Beta subtask" = none ∧
    estimate_agents "T" (fun _ => ChatResult.ok "- Alpha subtask\n- Beta subtask") =
      EstOutcome.result ["T"] := by
  refine ⟨by decide, by decide, by decide⟩

/-- C4: reaching attempt `k` with an exception from the model
collaborator, `estimate_agents` terminates the whole process
(`exit(1)`, modelled by `fatalExit 1`) when the error carries a
rate-limit marker, immediately and without retrying; any other error
propagates unchanged (`raised e`) to the caller. -/
theorem estimate_agents_transport (task : String) (resp : Nat → ChatResult)
    (k : Nat) (e : String) (hk : k < 3)
    (hprev : ∀ j, j < k → ∃ c, resp j = ChatResult.ok c ∧ attemptOnce c = none)
    (hke : resp k = ChatResult.err e) :
    estimate_agents task resp =
      if rateLimited e then EstOutcome.fatalExit 1 else EstOutcome.raised e := by
  unfold estimate_agents
  interval_cases k
  · simp [estLoop, hke]
  · obtain ⟨c0, hr0, ha0⟩ := hprev 0 (by omega)
    rw [estLoop_skip task resp 0 2 c0 hr0 ha0]
    simp [estLoop, hke]
  · obtain ⟨c0, hr0, ha0⟩ := hprev 0 (by omega)
    obtain ⟨c1, hr1, ha1⟩ := hprev 1 (by omega)
    rw [estLoop_skip task resp 0 2 c0 hr0 ha0,
      estLoop_skip task resp 1 1 c1 hr1 ha1]
    simp [estLoop, hke]

/-- C4 witness: a first-attempt error carrying the `status code: 402`
marker terminates the process at once. -/
theorem estimate_agents_transport_witness :
    estimate_agents "T" (fun _ => ChatResult.err "Error: status code: 402") =
      EstOutcome.fatalExit 1 := by
  rw [estimate_agents_transport "T" (fun _ => ChatResult.err "Error: status code: 402")
    0 "Error: status code: 402" (by omega) (fun j hj => absurd hj (Nat.not_lt_zero j)) rfl]
  decide

/-- C6: on any attempt of `estimate_agents` whose normalized response
fails strict JSON parsing — attempt `k < 3`, reached because every
earlier attempt failed — the response is split on sentence-ending
punctuation followed by whitespace, fragments whose stripped length
exceeds 10 characters are kept (`sentenceFragments`), and that fragment
list is the attempt's returned result exactly when it has more than one
fragment (otherwise the loop moves on to the next attempt). -/
theorem estimate_agents_sentence_fallback (task : String) (resp : Nat → ChatResult)
    (k : Nat) (c : String) (hk : k < 3)
    (hprev : ∀ j, j < k → ∃ cj, resp j = ChatResult.ok cj ∧ attemptOnce cj = none)
    (hke : resp k = ChatResult.ok c)
    (hj : jsonLoadsStringList c = none) :
    (1 < (sentenceFragments c).length →
      estimate_agents task resp = EstOutcome.result (sentenceFragments c)) ∧
    ((sentenceFragments c).length ≤ 1 →
      estimate_agents task resp = estLoop task resp (k + 1) (2 - k)) := by
  have hreach : estimate_agents task resp = estLoop task resp k (3 - k) := by
    unfold estimate_agents
    interval_cases k
    · rfl
    · obtain ⟨c0, hr0, ha0⟩ := hprev 0 (by omega)
      exact estLoop_skip task resp 0 2 c0 hr0 ha0
    · obtain ⟨c0, hr0, ha0⟩ := hprev 0 (by omega)
      obtain ⟨c1, hr1, ha1⟩ := hprev 1 (by omega)
      rw [estLoop_skip task resp 0 2 c0 hr0 ha0,
        estLoop_skip task resp 1 1 c1 hr1 ha1]
  have h3k : 3 - k = (2 - k) + 1 := by omega
  constructor
  · intro hgt
    have ha : attemptOnce c = some (sentenceFragments c) := by
      simp only [attemptOnce, hj]
      rw [if_pos hgt]
    rw [hreach, h3k]
    simp [estLoop, hke, ha]
  · intro hle
    rw [hreach, h3k]
    exact estLoop_skip task resp k (2 - k) c hke (attemptOnce_eq_none c hj hle)

/-- C6 witness: the first attempt fails (short prose), and the second
attempt's two long sentences are returned as the decomposition. -/
theorem estimate_agents_sentence_fallback_witness :
    estimate_agents "T"
      (fun j => if j = 0 then ChatResult.ok "no luck"
        else ChatResult.ok "Do the first thing today. Then do the second thing.") =
      EstOutcome.result
        (sentenceFragments "Do the first thing today. Then do the second thing.") :=
  (estimate_agents_sentence_fallback "T"
    (fun j => if j = 0 then ChatResult.ok "no luck"
      else ChatResult.ok "Do the first thing today. Then do the second thing.")
    1 "Do the first thing today. Then do the second thing." (by omega)
    (fun j hj => by
      interval_cases j
      exact ⟨"no luck", rfl, by decide⟩)
    rfl (by decide)).1 (by decide)
